import Mathlib

/-!
# Verification of `src/tenants/isolation.py` (multi-tenant isolation)

Shallow embedding of the tenant-isolation module: the plan catalog
(`PLAN_LIMITS`), the `Tenant` entity with its derived checks
(`has_feature`, `can_add_user`), the current-tenant context slot
(`get_current_tenant` / `set_current_tenant` / `tenant_context` /
`require_tenant`), the tenant-aware query filter
(`TenantAwareQuery.get_tenant_filter`), and the ASGI middleware's
tenant-resolution logic (`TenantMiddleware`).

The per-task `ContextVar` state is modelled two ways:
* a single-task view, where the variable's value for the calling task is an
  `Option String` threaded through the operations (exceptions are modelled
  with `Except`, the error payload carrying the state at raise time so that
  `finally` blocks can be expressed); and
* a multi-task view for the concurrency claims, where the store maps a
  logical task id to its own value (the documented `contextvars` semantics:
  one value per logical task), and executions are arbitrary interleavings
  of the tasks' step sequences.
-/

namespace TenantIsolation

/-- Subscription plan tiers (`class TenantPlan(str, Enum)`). -/
inductive TenantPlan where
  | free
  | starter
  | professional
  | enterprise
deriving DecidableEq, Repr

/-- Limits for a subscription plan (`@dataclass class PlanLimits`).
Integer limits use `Int` because `-1` is the unlimited sentinel; `features`
is a `List String` exactly as the Python dataclass holds a `List[str]`. -/
structure PlanLimits where
  max_users : Int
  max_storage_gb : Int
  max_api_calls_per_day : Int
  features : List String
deriving DecidableEq, Repr

/-- The module-level `PLAN_LIMITS` dictionary, one entry per plan tier. -/
def PLAN_LIMITS : TenantPlan → PlanLimits
  | TenantPlan.free =>
      { max_users := 3
        max_storage_gb := 1
        max_api_calls_per_day := 1000
        features := ["basic_reports"] }
  | TenantPlan.starter =>
      { max_users := 10
        max_storage_gb := 10
        max_api_calls_per_day := 10000
        features := ["basic_reports", "api_access", "email_support"] }
  | TenantPlan.professional =>
      { max_users := 50
        max_storage_gb := 100
        max_api_calls_per_day := 100000
        features := ["basic_reports", "api_access", "email_support",
                     "advanced_analytics", "integrations"] }
  | TenantPlan.enterprise =>
      { max_users := -1
        max_storage_gb := -1
        max_api_calls_per_day := -1
        features := ["basic_reports", "api_access", "email_support",
                     "advanced_analytics", "integrations", "sso",
                     "audit_logs", "sla"] }

/-- Tenant entity (`@dataclass class Tenant`). `created_at` is an abstract
timestamp and `settings` an association list, standing in for the Python
`datetime` and `Dict[str, Any]`; neither is consumed by any behavior here. -/
structure Tenant where
  id : String := ""
  name : String := ""
  slug : String := ""
  plan : TenantPlan := TenantPlan.free
  is_active : Bool := true
  created_at : Nat := 0
  settings : List (String × String) := []
deriving DecidableEq, Repr

/-- The `Tenant.limits` property: `PLAN_LIMITS[self.plan]`. -/
def Tenant.limits (t : Tenant) : PlanLimits :=
  PLAN_LIMITS t.plan

/-- `Tenant.has_feature`: `feature in self.limits.features`. -/
def Tenant.has_feature (t : Tenant) (feature : String) : Bool :=
  t.limits.features.contains feature

/-- `Tenant.can_add_user`: `max_users == -1 or current_count < max_users`. -/
def Tenant.can_add_user (t : Tenant) (current_count : Int) : Bool :=
  let max_users := t.limits.max_users
  max_users == -1 || decide (current_count < max_users)

/-- A fixed free-plan tenant, used to instantiate plan-dependent claims. -/
def freeTenant : Tenant :=
  { id := "t-free", plan := TenantPlan.free }

/-- A fixed enterprise-plan tenant, used to instantiate plan-dependent
claims. -/
def enterpriseTenant : Tenant :=
  { id := "t-ent", plan := TenantPlan.enterprise }

/-- Error raised by `require_tenant` (the spec calls it `NoTenantContext`;
the source raises `ValueError("No tenant context set")`). -/
inductive TenantError where
  | NoTenantContext
deriving DecidableEq, Repr

/-- Single-task view of `current_tenant_var`: the calling task's value of
the `ContextVar[Optional[str]]`, default `None`. -/
abbrev CtxState := Option String

/-- `get_current_tenant()`: `current_tenant_var.get()`. -/
def get_current_tenant (s : CtxState) : Option String :=
  s

/-- `set_current_tenant(tenant_id)`: `current_tenant_var.set(tenant_id)`.
The slot is overwritten unconditionally; the previous value is not saved. -/
def set_current_tenant (tenant_id : Option String) (_s : CtxState) : CtxState :=
  tenant_id

/-- The `tenant_context` context manager. The body receives the state after
the scope's value is set and returns either a normal result or a raised
error, in both cases paired with the state at that moment; the `finally`
clause restores the saved `previous` value on both paths. -/
def tenant_context {ε α : Type} (tenant_id : String)
    (body : CtxState → Except (ε × CtxState) (α × CtxState))
    (s : CtxState) : Except (ε × CtxState) (α × CtxState) :=
  let previous := get_current_tenant s
  let s1 := set_current_tenant (some tenant_id) s
  match body s1 with
  | Except.ok (a, s2) => Except.ok (a, set_current_tenant previous s2)
  | Except.error (e, s2) => Except.error (e, set_current_tenant previous s2)

/-- State component of a finished `tenant_context` run, on either exit
path. -/
def exceptState {ε α : Type} : Except (ε × CtxState) (α × CtxState) → CtxState
  | Except.ok (_, s) => s
  | Except.error (_, s) => s

/-- `require_tenant()`: raises when `not tenant_id`, i.e. when the value is
`None` or the empty string (Python falsiness of `Optional[str]`). -/
def require_tenant (s : CtxState) : Except TenantError String :=
  match get_current_tenant s with
  | none => Except.error TenantError.NoTenantContext
  | some tenant_id =>
      if tenant_id == "" then Except.error TenantError.NoTenantContext
      else Except.ok tenant_id

/-- Minimal shape of a tenant-scoped entity row: the mixin only touches the
`organization_id` column. -/
structure Row where
  organization_id : String
deriving DecidableEq, Repr

/-- `TenantAwareQuery.get_tenant_filter`: builds the predicate
`cls.organization_id == tenant_id` from `require_tenant()`;
the `ValueError` propagates when no tenant is set. -/
def TenantAwareQuery.get_tenant_filter (s : CtxState) :
    Except TenantError (Row → Bool) :=
  match require_tenant s with
  | Except.error e => Except.error e
  | Except.ok tenant_id => Except.ok (fun row => row.organization_id == tenant_id)

/-- `TenantAwareQuery.for_tenant`: applies the tenant filter to a query,
modelled as filtering a list of rows. -/
def TenantAwareQuery.for_tenant (query : List Row) (s : CtxState) :
    Except TenantError (List Row) :=
  match TenantAwareQuery.get_tenant_filter s with
  | Except.error e => Except.error e
  | Except.ok f => Except.ok (query.filter f)

/-- Equality of `Except` values is decidable componentwise; needed to
evaluate claims about `require_tenant` results on concrete inputs. -/
instance {ε α : Type} [DecidableEq ε] [DecidableEq α] :
    DecidableEq (Except ε α) := fun a b =>
  match a, b with
  | Except.error e1, Except.error e2 =>
      if h : e1 = e2 then Decidable.isTrue (by subst h; rfl)
      else Decidable.isFalse (by intro hh; cases hh; exact h rfl)
  | Except.error _, Except.ok _ => Decidable.isFalse (by intro hh; cases hh)
  | Except.ok _, Except.error _ => Decidable.isFalse (by intro hh; cases hh)
  | Except.ok a1, Except.ok a2 =>
      if h : a1 = a2 then Decidable.isTrue (by subst h; rfl)
      else Decidable.isFalse (by intro hh; cases hh; exact h rfl)

/-- Python `str.lower()` restricted to what header names need (ASCII),
modelled character by character over the string's character list (the
library `String.toLower` does not reduce inside the kernel). -/
def pyLower (s : String) : String :=
  String.mk (s.data.map Char.toLower)

/-- Python `dict(pairs)` lookup over an ASGI header list: the value of the
last pair with the given key (later duplicates win in `dict`), if any. -/
def headersDict (headers : List (String × String)) (k : String) : Option String :=
  ((headers.filter (fun p => p.1 == k)).getLast?).map (fun p => p.2)

/-- Configured ASGI middleware: `__init__` stores
`header_name.lower().encode()`, so the field already holds the lowercased
name. -/
structure TenantMiddleware where
  header_name : String
deriving DecidableEq, Repr

/-- `TenantMiddleware.__init__`: lowercases the configured header name. -/
def TenantMiddleware.init (header_name : String) : TenantMiddleware :=
  { header_name := pyLower header_name }

/-- Default value of the `header_name` constructor argument. -/
def defaultHeaderName : String := "X-Tenant-ID"

/-- ASGI servers pass `scope["headers"]` with header names lowercased
(byte strings per the ASGI spec); this models that normalization of the
raw request headers before the middleware sees them. -/
def asgiNormalize (raw : List (String × String)) : List (String × String) :=
  raw.map (fun p => (pyLower p.1, p.2))

/-- Tenant extraction in `TenantMiddleware.__call__`: take the configured
header's value (empty when absent); when falsy, fall back to the first
dot-delimited label of the `host` header, provided the host is non-empty
and contains a dot; otherwise the identifier stays empty. -/
def TenantMiddleware.resolveTenant (m : TenantMiddleware)
    (headers : List (String × String)) : String :=
  let tenant_id := (headersDict headers m.header_name).getD ""
  if tenant_id == "" then
    let host := (headersDict headers "host").getD ""
    if host != "" && host.data.contains '.' then
      String.mk ((host.data.splitOn '.').headD [])
    else tenant_id
  else tenant_id

/-- Full resolution for a raw HTTP request: ASGI normalization of the raw
headers, then the middleware's extraction; `__call__` enters
`tenant_context` with this identifier. -/
def TenantMiddleware.resolveRaw (m : TenantMiddleware)
    (raw : List (String × String)) : String :=
  m.resolveTenant (asgiNormalize raw)

/-! ## Multi-task view of the `ContextVar`

`current_tenant_var` is a `contextvars.ContextVar`: each logical task
(asyncio task / thread of execution) reads and writes its own copy of the
value. The store maps a task id to that task's value (default `None`);
a step is a `set` or a `get` performed by one task, and an execution is an
arbitrary interleaving of the tasks' own step sequences. -/

/-- Task-keyed store of `current_tenant_var`: one value per logical task. -/
def Store := Nat → Option String

/-- `ContextVar.get()` performed by task `t`. -/
def ctxGet (t : Nat) (σ : Store) : Option String :=
  σ t

/-- `ContextVar.set(v)` performed by task `t`: only task `t`'s entry
changes. -/
def ctxSet (t : Nat) (v : Option String) (σ : Store) : Store :=
  fun u => if u = t then v else σ u

/-- One operation on the context variable. -/
inductive StepOp where
  | setv (v : Option String)
  | getv
deriving DecidableEq, Repr

/-- A step: an operation performed by a given task. -/
structure Step where
  tid : Nat
  op : StepOp
deriving DecidableEq, Repr

/-- Execute a step sequence: `set` steps update the acting task's entry,
`get` steps record the observation `(task, value read)`. Returns the final
store and the list of observations in order. -/
def execSteps : List Step → Store → Store × List (Nat × Option String)
  | [], σ => (σ, [])
  | Step.mk t (StepOp.setv v) :: rest, σ => execSteps rest (ctxSet t v σ)
  | Step.mk t StepOp.getv :: rest, σ =>
      ((execSteps rest σ).1, (t, ctxGet t σ) :: (execSteps rest σ).2)

/-- Step sequence of one task running `tenant_context(tenant_id)` around a
body that observes the current tenant `n` times: save `previous` (the
task's own entry, `prev`), set the scope's value, observe, and restore
`previous` in the `finally` clause. -/
def scopeTrace (t : Nat) (tenant_id : String) (prev : Option String)
    (n : Nat) : List Step :=
  Step.mk t (StepOp.setv (some tenant_id)) ::
    (List.replicate n (Step.mk t StepOp.getv) ++ [Step.mk t (StepOp.setv prev)])

/-- Interleaving of two step sequences: any merge that preserves each
task's own order. -/
inductive Interleaves : List Step → List Step → List Step → Prop where
  | nil : Interleaves [] [] []
  | left {x xs ys zs} : Interleaves xs ys zs → Interleaves (x :: xs) ys (x :: zs)
  | right {y xs ys zs} : Interleaves xs ys zs → Interleaves xs (y :: ys) (y :: zs)

/-! ## Theorems -/

/-- C6: the plan catalog is total (a Lean function on the closed
enumeration), carries exactly the fixed limit and feature values of
`PLAN_LIMITS`, and is deterministic: looking a plan up twice yields
identical results. -/
theorem plan_catalog_values_total_deterministic :
    PLAN_LIMITS TenantPlan.free =
      { max_users := 3, max_storage_gb := 1, max_api_calls_per_day := 1000,
        features := ["basic_reports"] } ∧
    PLAN_LIMITS TenantPlan.starter =
      { max_users := 10, max_storage_gb := 10, max_api_calls_per_day := 10000,
        features := ["basic_reports", "api_access", "email_support"] } ∧
    PLAN_LIMITS TenantPlan.professional =
      { max_users := 50, max_storage_gb := 100,
        max_api_calls_per_day := 100000,
        features := ["basic_reports", "api_access", "email_support",
                     "advanced_analytics", "integrations"] } ∧
    PLAN_LIMITS TenantPlan.enterprise =
      { max_users := -1, max_storage_gb := -1, max_api_calls_per_day := -1,
        features := ["basic_reports", "api_access", "email_support",
                     "advanced_analytics", "integrations", "sso",
                     "audit_logs", "sla"] } ∧
    ∀ p : TenantPlan, PLAN_LIMITS p = PLAN_LIMITS p := by
  refine ⟨rfl, rfl, rfl, rfl, fun p => rfl⟩

/-- C8: `has_feature f` holds exactly when `f` is in the feature list of
the tenant's plan limits; a free tenant lacks `"sso"`, an enterprise
tenant has it. -/
theorem has_feature_membership :
    (∀ (t : Tenant) (f : String),
        t.has_feature f = t.limits.features.contains f) ∧
    freeTenant.has_feature "sso" = false ∧
    enterpriseTenant.has_feature "sso" = true := by
  refine ⟨fun t f => rfl, by decide, by decide⟩

/-- C7: under the precondition `0 ≤ current_count`, `can_add_user` returns
`max_users == -1 OR current_count < max_users`; an enterprise tenant
(`max_users = -1`) accepts every non-negative count, and a free tenant
(`max_users = 3`) accepts exactly the counts below 3. -/
theorem can_add_user_limit (t : Tenant) (n : Int) (hn : 0 ≤ n) :
    t.can_add_user n =
      (t.limits.max_users == -1 || decide (n < t.limits.max_users)) ∧
    enterpriseTenant.can_add_user n = true ∧
    freeTenant.can_add_user n = decide (n < 3) := by
  refine ⟨rfl, ?_, ?_⟩
  · simp [Tenant.can_add_user, enterpriseTenant, Tenant.limits, PLAN_LIMITS]
  · simp [Tenant.can_add_user, freeTenant, Tenant.limits, PLAN_LIMITS]

/-- Witness for C7 at count 2: the free tenant (limit 3) accepts it and the
enterprise tenant accepts it. -/
theorem can_add_user_limit_witness :
    enterpriseTenant.can_add_user 2 = true ∧
    freeTenant.can_add_user 2 = decide ((2 : Int) < 3) := by
  have h := can_add_user_limit freeTenant 2 (by decide)
  exact ⟨(can_add_user_limit enterpriseTenant 2 (by decide)).2.1, h.2.2⟩

/-- C10: on a bounded plan (`max_users ≠ -1`), `can_add_user` returns true
on every negative count, because the implementation only tests
`current_count < max_users`. -/
theorem can_add_user_negative_count (t : Tenant) (n : Int)
    (hb : t.limits.max_users ≠ -1) (hn : n < 0) :
    t.can_add_user n = true := by
  rcases t with ⟨id, name, slug, plan, act, created, settings⟩
  cases plan <;>
    simp_all [Tenant.can_add_user, Tenant.limits, PLAN_LIMITS] <;> omega

/-- Witness for C10: the free tenant (limit 3, bounded) accepts the
negative count -5. -/
theorem can_add_user_negative_count_witness :
    freeTenant.can_add_user (-5) = true :=
  can_add_user_negative_count freeTenant (-5) (by decide) (by decide)

/-- C1 counterexample: a scope entered with the empty identifier is active
(via `tenant_context ""`), yet `require_tenant` raises `NoTenantContext`
inside it instead of returning the empty identifier. -/
theorem require_tenant_empty_scope_raises :
    @tenant_context Unit (Except TenantError String) ""
        (fun s => Except.ok (require_tenant s, s)) none
      = Except.ok (Except.error TenantError.NoTenantContext, none) ∧
    Except.error TenantError.NoTenantContext ≠
      (Except.ok "" : Except TenantError String) := by
  exact ⟨rfl, by decide⟩

/-- C1 amended: `require_tenant` raises `NoTenantContext` exactly when the
current value is absent or the empty string (Python falsiness); for a
non-empty identifier it returns that identifier. -/
theorem require_tenant_falsy (tenant_id : String) (h : tenant_id ≠ "") :
    require_tenant none = Except.error TenantError.NoTenantContext ∧
    require_tenant (some "") = Except.error TenantError.NoTenantContext ∧
    require_tenant (some tenant_id) = Except.ok tenant_id := by
  refine ⟨rfl, rfl, ?_⟩
  simp [require_tenant, get_current_tenant, h]

/-- Witness for C1 (amended) at the identifier "acme". -/
theorem require_tenant_falsy_witness :
    require_tenant none = Except.error TenantError.NoTenantContext ∧
    require_tenant (some "") = Except.error TenantError.NoTenantContext ∧
    require_tenant (some "acme") = Except.ok "acme" :=
  require_tenant_falsy "acme" (by decide)

/-- Characterization of `tenant_context`: the body runs with the scope's
value set, and on both exit paths the `finally` clause puts back the value
read before entry. -/
theorem tenant_context_eq {ε α : Type} (tenant_id : String)
    (body : CtxState → Except (ε × CtxState) (α × CtxState)) (s : CtxState) :
    tenant_context tenant_id body s =
      (match body (some tenant_id) with
       | Except.ok (a, _) => Except.ok (a, get_current_tenant s)
       | Except.error (e, _) => Except.error (e, get_current_tenant s)) := by
  cases h : body (some tenant_id) with
  | ok p =>
      rcases p with ⟨a, s2⟩
      simp [tenant_context, set_current_tenant, get_current_tenant, h]
  | error p =>
      rcases p with ⟨e, s2⟩
      simp [tenant_context, set_current_tenant, get_current_tenant, h]

/-- The state after a finished `tenant_context` run is the state before it,
whatever the body did and however it exited. -/
theorem tenant_context_final_state {ε α : Type} (tenant_id : String)
    (body : CtxState → Except (ε × CtxState) (α × CtxState)) (s : CtxState) :
    exceptState (tenant_context tenant_id body s) = get_current_tenant s := by
  rw [tenant_context_eq]
  cases h : body (some tenant_id) with
  | ok p => rcases p with ⟨a, s2⟩; rfl
  | error p => rcases p with ⟨e, s2⟩; rfl

/-- C2: a `tenant_context` scope runs its body with the scope's identifier
current and, for every body (hence for every nest of further scopes inside
it) and on every exit path, normal or raising, exiting restores exactly
the current-tenant value active immediately before the scope was
entered. -/
theorem tenant_context_stack_discipline (ε α : Type) (tenant_id : String)
    (body : CtxState → Except (ε × CtxState) (α × CtxState)) (s : CtxState) :
    exceptState (tenant_context tenant_id body s) = get_current_tenant s ∧
    tenant_context tenant_id body s =
      (match body (some tenant_id) with
       | Except.ok (a, _) => Except.ok (a, get_current_tenant s)
       | Except.error (e, _) => Except.error (e, get_current_tenant s)) :=
  ⟨tenant_context_final_state tenant_id body s,
   tenant_context_eq tenant_id body s⟩

/-- C9 counterexample: the module's public raw setter overwrites the slot
with no scope entered and no saved previous value, and calling it inside a
scope for "a" makes the observed current tenant "b", so the current value
no longer reflects the innermost active scope: the stack discipline is
bypassed through the public API. -/
theorem raw_set_bypasses_scope :
    get_current_tenant (set_current_tenant (some "evil") (some "acme"))
      = some "evil" ∧
    @tenant_context Unit (Option String) "a"
        (fun s => Except.ok (get_current_tenant (set_current_tenant (some "b") s),
                             set_current_tenant (some "b") s)) none
      = Except.ok (some "b", none) ∧
    (some "b" : Option String) ≠ some "a" :=
  ⟨rfl, rfl, by decide⟩

/-- C9 amended: the module exposes raw `get_current_tenant` and
`set_current_tenant` alongside the scoped operations; the raw setter
overwrites the slot unconditionally, discarding the previous value, so
stack discipline is not enforced at the API boundary — only
`tenant_context` itself restores the prior value around its own scope. -/
theorem raw_set_exposed_scope_restores :
    (∀ (v : Option String) (s : CtxState), set_current_tenant v s = v) ∧
    (∀ (ε α : Type) (tenant_id : String)
        (body : CtxState → Except (ε × CtxState) (α × CtxState)) (s : CtxState),
        exceptState (tenant_context tenant_id body s) = get_current_tenant s) :=
  ⟨fun v s => rfl,
   fun ε α tenant_id body s => tenant_context_final_state tenant_id body s⟩

/-- C4: with a scope for "acme" active, `get_tenant_filter` produces the
predicate `organization_id == "acme"`; outside any scope it fails with
`NoTenantContext`; and a full `tenant_context "acme"` run that builds the
filter inside ends with the current tenant absent again. -/
theorem get_tenant_filter_end_to_end :
    TenantAwareQuery.get_tenant_filter (some "acme")
      = Except.ok (fun row => row.organization_id == "acme") ∧
    TenantAwareQuery.get_tenant_filter none
      = Except.error TenantError.NoTenantContext ∧
    @tenant_context Unit (Except TenantError (Row → Bool)) "acme"
        (fun s => Except.ok (TenantAwareQuery.get_tenant_filter s, s)) none
      = Except.ok (Except.ok (fun row => row.organization_id == "acme"), none) :=
  ⟨rfl, rfl, rfl⟩

/-- Reading a task's entry right after that task set it yields the value
just set. -/
theorem ctxGet_ctxSet_self (t : Nat) (v : Option String) (σ : Store) :
    ctxGet t (ctxSet t v σ) = v := by
  simp [ctxGet, ctxSet]

/-- A set performed by a different task leaves a task's entry unchanged:
this is the task-locality of the `ContextVar`. -/
theorem ctxSet_apply_ne (t u : Nat) (v : Option String) (σ : Store)
    (h : u ≠ t) : ctxSet u v σ t = σ t := by
  simp [ctxSet, Ne.symm h]

/-- A task's observations and its own store entry depend only on the
subsequence of steps performed by that task: steps of other tasks neither
show up among its filtered observations nor move its entry. -/
theorem execSteps_proj (t : Nat) (ms : List Step) :
    ∀ (σ1 σ2 : Store), σ1 t = σ2 t →
      ((execSteps ms σ1).2.filter (fun ob => ob.1 == t)
          = (execSteps (ms.filter (fun st => st.tid == t)) σ2).2.filter
              (fun ob => ob.1 == t)) ∧
      (execSteps ms σ1).1 t
          = (execSteps (ms.filter (fun st => st.tid == t)) σ2).1 t := by
  induction ms with
  | nil => intro σ1 σ2 h; simpa [execSteps] using h
  | cons st rest ih =>
      intro σ1 σ2 h
      rcases st with ⟨u, op⟩
      by_cases hu : u = t
      · subst hu
        cases op with
        | setv v =>
            have hnew : ctxSet u v σ1 u = ctxSet u v σ2 u := by
              simp [ctxSet]
            simpa [execSteps, List.filter_cons] using
              ih (ctxSet u v σ1) (ctxSet u v σ2) hnew
        | getv =>
            have hrec := ih σ1 σ2 h
            simp [execSteps, List.filter_cons, ctxGet, h, hrec.1, hrec.2]
      · cases op with
        | setv v =>
            have hnew : ctxSet u v σ1 t = σ2 t := by
              rw [ctxSet_apply_ne t u v σ1 hu]; exact h
            simpa [execSteps, List.filter_cons, hu] using
              ih (ctxSet u v σ1) σ2 hnew
        | getv =>
            have hrec := ih σ1 σ2 h
            simp [execSteps, List.filter_cons, hu, hrec.1, hrec.2]

/-- Interleaving is symmetric. -/
theorem interleaves_symm {xs ys zs : List Step}
    (h : Interleaves xs ys zs) : Interleaves ys xs zs := by
  induction h with
  | nil => exact Interleaves.nil
  | left hrec ih => exact Interleaves.right ih
  | right hrec ih => exact Interleaves.left ih

/-- In an interleaving of one task's steps with another task's steps,
filtering the merged sequence by the first task's id recovers exactly the
first task's own sequence. -/
theorem interleaves_filter_left {xs ys zs : List Step} (t u : Nat)
    (htu : u ≠ t) (h : Interleaves xs ys zs)
    (hxs : ∀ st ∈ xs, st.tid = t) (hys : ∀ st ∈ ys, st.tid = u) :
    zs.filter (fun st => st.tid == t) = xs := by
  induction h with
  | nil => rfl
  | @left x xs' ys' zs' hrec ih =>
      have hx : x.tid = t := hxs x (List.mem_cons_self x xs')
      have ih' := ih (fun st hst => hxs st (List.mem_cons_of_mem x hst)) hys
      simp [List.filter_cons, hx, ih']
  | @right y xs' ys' zs' hrec ih =>
      have hy : y.tid = u := hys y (List.mem_cons_self y ys')
      have ih' := ih hxs (fun st hst => hys st (List.mem_cons_of_mem y hst))
      simp [List.filter_cons, hy, htu, ih']

/-- Concatenation is one particular interleaving. -/
theorem interleaves_append (xs ys : List Step) :
    Interleaves xs ys (xs ++ ys) := by
  induction xs with
  | nil =>
      show Interleaves [] ys ys
      induction ys with
      | nil => exact Interleaves.nil
      | cons y ys ihy => exact Interleaves.right ihy
  | cons x xs ih => exact Interleaves.left ih

/-- Every step of a `scopeTrace` belongs to the task that runs it. -/
theorem scopeTrace_tid_eq (t : Nat) (tenant_id : String)
    (prev : Option String) (n : Nat) :
    ∀ st ∈ scopeTrace t tenant_id prev n, st.tid = t := by
  intro st hst
  simp [scopeTrace, List.mem_append, List.mem_replicate] at hst
  rcases hst with h | h | h
  · rw [h]
  · rw [h.2]
  · rw [h]

/-- Executing a concatenation: run the first part, then the second from
the store the first part left. -/
theorem execSteps_append (xs ys : List Step) (σ : Store) :
    execSteps (xs ++ ys) σ =
      ((execSteps ys (execSteps xs σ).1).1,
       (execSteps xs σ).2 ++ (execSteps ys (execSteps xs σ).1).2) := by
  induction xs generalizing σ with
  | nil => simp [execSteps]
  | cons st rest ih =>
      rcases st with ⟨u, op⟩
      cases op <;> simp [execSteps, ih]

/-- A block of observations by one task reads that task's entry and leaves
the store untouched. -/
theorem execSteps_replicate_getv (t : Nat) (n : Nat) (σ : Store) :
    execSteps (List.replicate n (Step.mk t StepOp.getv)) σ =
      (σ, List.replicate n (t, ctxGet t σ)) := by
  induction n with
  | zero => simp [execSteps]
  | succ m ih => simp [List.replicate_succ, execSteps, ih]

/-- Running one task's scope trace alone: every observation sees the
scope's identifier, and the task's entry ends at the saved previous
value. -/
theorem execSteps_scopeTrace (t : Nat) (tenant_id : String)
    (prev : Option String) (n : Nat) (σ : Store) :
    execSteps (scopeTrace t tenant_id prev n) σ =
      (ctxSet t prev (ctxSet t (some tenant_id) σ),
       List.replicate n (t, some tenant_id)) := by
  simp [scopeTrace, execSteps, execSteps_append, execSteps_replicate_getv,
        ctxGet_ctxSet_self]

/-- Filtering a replicated observation list by its own task id keeps it
whole. -/
theorem filter_replicate_obs (t : Nat) (w : Option String) (n : Nat) :
    (List.replicate n ((t, w) : Nat × Option String)).filter
        (fun ob => ob.1 == t) = List.replicate n (t, w) := by
  induction n with
  | zero => rfl
  | succ m ih => simp [List.replicate_succ, List.filter_cons, ih]

/-- C3: for two tasks A ≠ B running `tenant_context idA` and
`tenant_context idB` with bodies that observe the current tenant, every
interleaving of their step sequences makes every observation by A read
idA and every observation by B read idB: the `ContextVar` store is
task-keyed, so neither task's value leaks into the other. -/
theorem concurrent_scopes_isolated (A B : Nat) (idA idB : String)
    (nA nB : Nat) (σ0 : Store) (ms : List Step)
    (hAB : A ≠ B) (hid : idA ≠ idB)
    (hI : Interleaves (scopeTrace A idA (σ0 A) nA)
            (scopeTrace B idB (σ0 B) nB) ms) :
    ((execSteps ms σ0).2.all
      (fun ob => (!(ob.1 == A) || (ob.2 == some idA)) &&
                 (!(ob.1 == B) || (ob.2 == some idB)))) = true := by
  have hfA : ms.filter (fun st => st.tid == A) = scopeTrace A idA (σ0 A) nA :=
    interleaves_filter_left A B (Ne.symm hAB) hI
      (scopeTrace_tid_eq A idA (σ0 A) nA) (scopeTrace_tid_eq B idB (σ0 B) nB)
  have hfB : ms.filter (fun st => st.tid == B) = scopeTrace B idB (σ0 B) nB :=
    interleaves_filter_left B A hAB (interleaves_symm hI)
      (scopeTrace_tid_eq B idB (σ0 B) nB) (scopeTrace_tid_eq A idA (σ0 A) nA)
  have hobsA : (execSteps ms σ0).2.filter (fun ob => ob.1 == A)
      = List.replicate nA (A, some idA) := by
    have h1 := (execSteps_proj A ms σ0 σ0 rfl).1
    rw [hfA, execSteps_scopeTrace] at h1
    rw [h1, filter_replicate_obs]
  have hobsB : (execSteps ms σ0).2.filter (fun ob => ob.1 == B)
      = List.replicate nB (B, some idB) := by
    have h1 := (execSteps_proj B ms σ0 σ0 rfl).1
    rw [hfB, execSteps_scopeTrace] at h1
    rw [h1, filter_replicate_obs]
  rw [List.all_eq_true]
  intro ob hob
  by_cases hA : ob.1 = A
  · have hmem : ob ∈ (execSteps ms σ0).2.filter (fun ob => ob.1 == A) :=
      List.mem_filter.mpr ⟨hob, by simp [hA]⟩
    rw [hobsA] at hmem
    have hval := List.eq_of_mem_replicate hmem
    simp [hval]
    exact Or.inl hAB
  · by_cases hB : ob.1 = B
    · have hmem : ob ∈ (execSteps ms σ0).2.filter (fun ob => ob.1 == B) :=
        List.mem_filter.mpr ⟨hob, by simp [hB]⟩
      rw [hobsB] at hmem
      have hval := List.eq_of_mem_replicate hmem
      simp [hval]
      exact Or.inl (Ne.symm hAB)
    · simp [hA, hB]

/-- Witness for C3: tasks 0 and 1 scope "a" and "b" with one observation
each, merged sequentially; both observations read their own task's
identifier. -/
theorem concurrent_scopes_isolated_witness :
    ((execSteps (scopeTrace 0 "a" none 1 ++ scopeTrace 1 "b" none 1)
        (fun _ => none)).2.all
      (fun ob => (!(ob.1 == 0) || (ob.2 == some "a")) &&
                 (!(ob.1 == 1) || (ob.2 == some "b")))) = true :=
  concurrent_scopes_isolated 0 1 "a" "b" 1 1 (fun _ => none)
    (scopeTrace 0 "a" none 1 ++ scopeTrace 1 "b" none 1)
    (by decide) (by decide)
    (interleaves_append (scopeTrace 0 "a" none 1) (scopeTrace 1 "b" none 1))

/-- C5: resolution precedence of the middleware. A non-empty value of the
configured tenant header (default "X-Tenant-ID", matched after the ASGI
lowercasing of header names and the lowercasing of the configured name,
hence case-insensitively) wins; otherwise a host containing a dot
contributes its first dot-delimited label; otherwise the identifier is
empty. Concretely: header "X-Tenant-ID: acme" with host
"other.example.com" resolves to "acme"; no header with host
"acme.example.com" resolves to "acme"; a request with neither resolves to
the empty identifier. -/
theorem middleware_resolution_precedence (header_name : String)
    (raw : List (String × String)) :
    ((headersDict (asgiNormalize raw) (pyLower header_name)).getD "" ≠ "" →
      (TenantMiddleware.init header_name).resolveRaw raw
        = (headersDict (asgiNormalize raw) (pyLower header_name)).getD "") ∧
    ((headersDict (asgiNormalize raw) (pyLower header_name)).getD "" = "" →
      (((headersDict (asgiNormalize raw) "host").getD "").data.contains '.')
          = true →
      (TenantMiddleware.init header_name).resolveRaw raw
        = String.mk
            ((((headersDict (asgiNormalize raw) "host").getD "").data.splitOn
                '.').headD [])) ∧
    ((headersDict (asgiNormalize raw) (pyLower header_name)).getD "" = "" →
      (((headersDict (asgiNormalize raw) "host").getD "").data.contains '.')
          = false →
      (TenantMiddleware.init header_name).resolveRaw raw = "") ∧
    (TenantMiddleware.init defaultHeaderName).resolveRaw
        [("X-Tenant-ID", "acme"), ("Host", "other.example.com")] = "acme" ∧
    (TenantMiddleware.init defaultHeaderName).resolveRaw
        [("Host", "acme.example.com")] = "acme" ∧
    (TenantMiddleware.init defaultHeaderName).resolveRaw [] = "" ∧
    ("acme" : String) ≠ "" := by
  refine ⟨?_, ?_, ?_, by decide, by decide, by decide, by decide⟩
  · intro h
    simp [TenantMiddleware.resolveRaw, TenantMiddleware.resolveTenant,
          TenantMiddleware.init, h]
  · intro h hc
    have hne : ((headersDict (asgiNormalize raw) "host").getD "") ≠ "" := by
      intro he
      rw [he] at hc
      simp [String.data] at hc
    have hc' : '.' ∈ ((headersDict (asgiNormalize raw) "host").getD "").data := by
      simpa using hc
    simp [TenantMiddleware.resolveRaw, TenantMiddleware.resolveTenant,
          TenantMiddleware.init, h, hc, hne]
    exact fun hmem => absurd hc' hmem
  · intro h hc
    have hc' : '.' ∉ ((headersDict (asgiNormalize raw) "host").getD "").data := by
      simpa using hc
    simp [TenantMiddleware.resolveRaw, TenantMiddleware.resolveTenant,
          TenantMiddleware.init, h, hc]
    exact fun _ hmem => absurd hmem hc'

/-- Witness for C5: the three concrete precedence scenarios, obtained from
the general precedence statement. -/
theorem middleware_resolution_precedence_witness :
    (TenantMiddleware.init defaultHeaderName).resolveRaw
        [("X-Tenant-ID", "acme"), ("Host", "other.example.com")] = "acme" ∧
    (TenantMiddleware.init defaultHeaderName).resolveRaw
        [("Host", "acme.example.com")] = "acme" ∧
    (TenantMiddleware.init defaultHeaderName).resolveRaw
        [("Host", "localhost")] = "" := by
  refine ⟨?_, ?_, ?_⟩
  · have h := (middleware_resolution_precedence defaultHeaderName
      [("X-Tenant-ID", "acme"), ("Host", "other.example.com")]).1 (by decide)
    rw [h]; decide
  · have h := (middleware_resolution_precedence defaultHeaderName
      [("Host", "acme.example.com")]).2.1 (by decide) (by decide)
    rw [h]; decide
  · exact (middleware_resolution_precedence defaultHeaderName
      [("Host", "localhost")]).2.2.1 (by decide) (by decide)

end TenantIsolation
